import Mathlib

/-!
Verification development for the Align task/calendar planner's local-first
synchronization engine.  The definitions below are a shallow embedding of the
TypeScript sources:

  * `src/src/types/index.ts`    — the task data model,
  * `src/src/store/index.ts`    — the Zustand store: task mutations with
                                  dirty-month tracking, `syncToWebDAV` (push)
                                  and `syncFromWebDAV` (pull),
  * `src/src/lib/database.ts`   — the Dexie persistence wrappers,
  * the Vercel WebDAV API handler (`api/webdav`).

Machine time instants (JS `Date` values) are modelled as `Int` milliseconds
since the Unix epoch, interpreted on the proleptic Gregorian calendar in UTC
(`date-fns`'s `format(d, 'yyyy-MM')` uses the local time zone; the model fixes
the zone to UTC).  The Dexie/IndexedDB layer and the network are modelled by
passing their results in explicitly; instrumentation fields on the operation
results record the remote requests and database writes an operation performs.
-/

namespace Align

/-- Left-pad the decimal rendering of an integer with zeros to the given
width, keeping a leading minus sign for negative numbers (as JS
`String.prototype.padStart`-style date formatting does). -/
def zeroPad (width : Nat) (n : Int) : String :=
  let s := toString n.natAbs
  let s := if s.length < width then String.mk (List.replicate (width - s.length) '0') ++ s else s
  if n < 0 then "-" ++ s else s

/-- A civil (proleptic Gregorian, UTC) date-time, the result of breaking an
epoch-milliseconds instant into calendar components. -/
structure Civil where
  year : Int
  month : Nat
  day : Nat
  hour : Nat
  minute : Nat
  second : Nat
  millis : Nat
deriving Repr, DecidableEq

/-- Convert epoch milliseconds to a civil UTC date-time (the standard
days-to-civil algorithm on 400-year eras, as used by JS `Date` accessors in
UTC). -/
def civilFromMs (ms : Int) : Civil :=
  let days : Int := Int.fdiv ms 86400000
  let rem : Nat := (Int.fmod ms 86400000).toNat
  let z : Int := days + 719468
  let era : Int := Int.fdiv z 146097
  let doe : Nat := (z - era * 146097).toNat
  let yoe : Nat := (doe - doe / 1460 + doe / 36524 - doe / 146096) / 365
  let y : Int := (yoe : Int) + era * 400
  let doy : Nat := doe - (365 * yoe + yoe / 4 - yoe / 100)
  let mp : Nat := (5 * doy + 2) / 153
  let d : Nat := doy - (153 * mp + 2) / 5 + 1
  let m : Nat := if mp < 10 then mp + 3 else mp - 9
  { year := if m ≤ 2 then y + 1 else y
    month := m
    day := d
    hour := rem / 3600000
    minute := rem % 3600000 / 60000
    second := rem % 60000 / 1000
    millis := rem % 1000 }

/-- The month shard key of an instant: `format(new Date(t), 'yyyy-MM')`
(store/index.ts derives every dirty-month key this way). -/
def monthOf (ms : Int) : String :=
  zeroPad 4 (civilFromMs ms).year ++ "-" ++ zeroPad 2 ((civilFromMs ms).month : Int)

/-- The ISO-8601 UTC rendering of an instant, which is what `JSON.stringify`
produces for a JS `Date` (via `Date.prototype.toJSON` = `toISOString`). -/
def isoOfMs (ms : Int) : String :=
  let c := civilFromMs ms
  zeroPad 4 c.year ++ "-" ++ zeroPad 2 (c.month : Int) ++ "-" ++ zeroPad 2 (c.day : Int) ++
    "T" ++ zeroPad 2 (c.hour : Int) ++ ":" ++ zeroPad 2 (c.minute : Int) ++ ":" ++
    zeroPad 2 (c.second : Int) ++ "." ++ zeroPad 3 (c.millis : Int) ++ "Z"

/-- Task status enum (`src/src/types/index.ts`, `TaskStatus`). -/
inductive TaskStatus
  | planning
  | notStarted
  | inProgress
  | paused
  | completed
  | cancelled
deriving Repr, DecidableEq

/-- Task priority enum (`src/src/types/index.ts`, `TaskPriority`). -/
inductive TaskPriority
  | urgentImportant
  | urgentUnimportant
  | importantNotUrgent
  | notImportantNotUrgent
deriving Repr, DecidableEq

/-- Task category enum (`src/src/types/index.ts`, `TaskCategory`). -/
inductive TaskCategory
  | work
  | study
  | health
  | life
  | other
deriving Repr, DecidableEq

/-- Subtask record (`src/src/types/index.ts`, `SubTask`). -/
structure SubTask where
  id : String
  title : String
  status : TaskStatus
  estimatedDuration : Nat
  actualDuration : Option Nat
  order : Nat
deriving Repr, DecidableEq

/-- Main task record (`src/src/types/index.ts`, `Task`).  The four `Date`
fields and the optional `completedAt` are epoch-millisecond instants. -/
structure Task where
  id : String
  title : String
  description : Option String
  startTime : Int
  endTime : Int
  estimatedDuration : Nat
  priority : TaskPriority
  status : TaskStatus
  category : TaskCategory
  parentId : Option String
  subtasks : List SubTask
  createdAt : Int
  updatedAt : Int
  completedAt : Option Int
  actualDuration : Option Nat
  aiSuggested : Option Bool
  reminderMinutes : Option Nat
deriving Repr, DecidableEq

/-- A `Partial<Task>` value: every field optional, merged over a task by
JS object spread `\x7b ...task, ...updates \x7d`. -/
structure TaskPatch where
  id : Option String := none
  title : Option String := none
  description : Option (Option String) := none
  startTime : Option Int := none
  endTime : Option Int := none
  estimatedDuration : Option Nat := none
  priority : Option TaskPriority := none
  status : Option TaskStatus := none
  category : Option TaskCategory := none
  parentId : Option (Option String) := none
  subtasks : Option (List SubTask) := none
  createdAt : Option Int := none
  updatedAt : Option Int := none
  completedAt : Option (Option Int) := none
  actualDuration : Option (Option Nat) := none
  aiSuggested : Option (Option Bool) := none
  reminderMinutes : Option (Option Nat) := none
deriving Repr, DecidableEq

/-- Merge a partial update over a task, field by field (JS spread). -/
def applyPatch (t : Task) (u : TaskPatch) : Task :=
  { id := u.id.getD t.id
    title := u.title.getD t.title
    description := u.description.getD t.description
    startTime := u.startTime.getD t.startTime
    endTime := u.endTime.getD t.endTime
    estimatedDuration := u.estimatedDuration.getD t.estimatedDuration
    priority := u.priority.getD t.priority
    status := u.status.getD t.status
    category := u.category.getD t.category
    parentId := u.parentId.getD t.parentId
    subtasks := u.subtasks.getD t.subtasks
    createdAt := u.createdAt.getD t.createdAt
    updatedAt := u.updatedAt.getD t.updatedAt
    completedAt := u.completedAt.getD t.completedAt
    actualDuration := u.actualDuration.getD t.actualDuration
    aiSuggested := u.aiSuggested.getD t.aiSuggested
    reminderMinutes := u.reminderMinutes.getD t.reminderMinutes }

/-- Insert into a JS `Set` materialized as a duplicate-free list in insertion
order: `Set.prototype.add` appends iff the element is absent. -/
def jsSetAdd (l : List String) (x : String) : List String :=
  if x ∈ l then l else l ++ [x]

/-- `new Set(list)` materialized as a list: first occurrences kept, in order. -/
def jsSetOfList (l : List String) : List String :=
  l.foldl jsSetAdd []

/-- JS `String.prototype.startsWith`, computed on the character list. -/
def strStartsWith (s pre : String) : Bool :=
  pre.data.isPrefixOf s.data

/-- JS `String.prototype.endsWith`, computed on the character list. -/
def strEndsWith (s suf : String) : Bool :=
  suf.data.isSuffixOf s.data

/-- Drop the first occurrence of `pat` from `s` — JS
`s.replace(pat, '')` with a string pattern (which replaces only the first
occurrence), computed on character lists. -/
def removeFirstOccur (s : List Char) (pat : List Char) : List Char :=
  match s with
  | [] => []
  | c :: rest =>
      if pat.isPrefixOf (c :: rest) then (c :: rest).drop pat.length
      else c :: removeFirstOccur rest pat

/-- Recover the month key from a shard file basename:
`file.basename.replace('tasks_', '').replace('.json', '')`
(store/index.ts, pull download loop). -/
def monthKeyOf (basename : String) : String :=
  String.mk (removeFirstOccur (removeFirstOccur basename.data "tasks_".data) ".json".data)

/-- WebDAV endpoint configuration (`src/src/types/index.ts`, `WebDAVConfig`). -/
structure WebDAVConfig where
  url : String
  username : String
  password : Option String
deriving Repr, DecidableEq

/-- The slice of the Zustand store state relevant to the synchronization
engine (`src/src/types/index.ts`, `AppState`): the task list, the WebDAV
sync fields, and the dirty-month tracker.  Pure UI fields (current week,
selected view, modal state, …) and the configuration documents
(`workSchedule`, `aiConfig`, `templates`) play no part in any claim and are
omitted. -/
structure AppState where
  tasks : List Task
  dirtyMonths : List String
  isSyncing : Bool
  lastSyncTime : Option Int
  webdavConfig : Option WebDAVConfig
deriving Repr, DecidableEq

/-- A `toast` notification emitted by a store operation. -/
inductive Toast
  | success (msg : String)
  | error (msg : String)
  | info (msg : String)
deriving Repr, DecidableEq

/-- The record persisted by `db.updateWebDAVState` during a sync: the shape
`\x7b ...webdavConfig, lastSyncTime, dirtyMonths \x7d` built by both
`syncToWebDAV` and `syncFromWebDAV`. -/
structure SyncStateWrite where
  url : String
  username : String
  password : Option String
  lastSyncTime : Option Int
  dirtyMonths : List String
deriving Repr, DecidableEq

namespace Store

/-- Store `addTask` (store/index.ts): persists the task, appends it to
`state.tasks` and appends `format(newTask.startTime, 'yyyy-MM')` to
`dirtyMonths`.  Id generation and the `createdAt`/`updatedAt` stamps are
modelled as fields already present on `newTask`. -/
def addTask (s : AppState) (newTask : Task) : AppState :=
  { s with
    tasks := s.tasks ++ [newTask]
    dirtyMonths := s.dirtyMonths ++ [monthOf newTask.startTime] }

/-- Store `updateTask` (store/index.ts): after `db.updateTask`, builds a JS
`Set` from `dirtyMonths`, adds the found task's current month and (when the
update carries a `startTime`) the new month, each guarded by JS truthiness
(the empty string is skipped), and maps the patch over the task list. -/
def updateTask (s : AppState) (id : String) (u : TaskPatch) : AppState :=
  let task? := s.tasks.find? (fun t => t.id = id)
  let month := match task? with
    | some t => monthOf t.startTime
    | none => ""
  let newMonth := match u.startTime with
    | some st => monthOf st
    | none => month
  let dirty0 := jsSetOfList s.dirtyMonths
  let dirty1 := if month ≠ "" then jsSetAdd dirty0 month else dirty0
  let dirty2 := if newMonth ≠ "" then jsSetAdd dirty1 newMonth else dirty1
  { s with
    tasks := s.tasks.map (fun t => if t.id = id then applyPatch t u else t)
    dirtyMonths := dirty2 }

/-- Store `deleteTask` (store/index.ts): removes the task and appends its
month (when the task was found) to `dirtyMonths`. -/
def deleteTask (s : AppState) (id : String) : AppState :=
  let task? := s.tasks.find? (fun t => t.id = id)
  let month? := match task? with
    | some t => some (monthOf t.startTime)
    | none => none
  { s with
    tasks := s.tasks.filter (fun t => t.id ≠ id)
    dirtyMonths := match month? with
      | some m => s.dirtyMonths ++ [m]
      | none => s.dirtyMonths }

/-- Store `moveTask` (store/index.ts): updates the task's time window and
appends `[oldMonth, newMonth].filter(Boolean)` to `dirtyMonths` (the
`filter(Boolean)` runs over the whole spread array, dropping empty
strings). -/
def moveTask (s : AppState) (id : String) (newStartTime newEndTime : Int) : AppState :=
  let task? := s.tasks.find? (fun t => t.id = id)
  let oldMonth := match task? with
    | some t => monthOf t.startTime
    | none => ""
  let newMonth := monthOf newStartTime
  { s with
    tasks := s.tasks.map (fun t =>
      if t.id = id then { t with startTime := newStartTime, endTime := newEndTime } else t)
    dirtyMonths := (s.dirtyMonths ++ [oldMonth, newMonth]).filter (fun m => m ≠ "") }

/-- Result of a `syncToWebDAV` (push) run: the final store state, the
persisted sync-state write, every remote request issued, and the toast. -/
structure PushResult where
  finalState : AppState
  dbWrite : Option SyncStateWrite
  remoteCalls : List String
  toast : Toast
deriving Repr, DecidableEq

/-- Store `syncToWebDAV` (store/index.ts, the push).  The source checks only
`webdavConfig` (not `isSyncing`), sets `isSyncing`, builds a config snapshot
it never sends, awaits a simulated 1-second delay — the hook for any racing
mutation, modelled by the `interim` state transform — and then, having issued
no remote request at all (the task-shard upload is an unimplemented
placeholder in the source), persists and installs `lastSyncTime := now` and
the literal `dirtyMonths := []`, reports success, and finally clears
`isSyncing`. -/
def syncToWebDAV (s0 : AppState) (interim : AppState → AppState) (now : Int) : PushResult :=
  match s0.webdavConfig with
  | none =>
      { finalState := s0
        dbWrite := none
        remoteCalls := []
        toast := .error "请先配置 WebDAV" }
  | some cfg =>
      let s1 := { s0 with isSyncing := true }
      let s2 := interim s1
      { finalState := { s2 with lastSyncTime := some now, dirtyMonths := [], isSyncing := false }
        dbWrite := some
          { url := cfg.url
            username := cfg.username
            password := cfg.password
            lastSyncTime := some now
            dirtyMonths := [] }
        remoteCalls := []
        toast := .success "同步成功" }

/-- A file entry returned by the WebDAV `listFiles` action; `lastmod` is the
epoch-millisecond value of `new Date(f.lastmod).getTime()`. -/
structure RemoteFile where
  basename : String
  lastmod : Int
deriving Repr, DecidableEq

/-- Shard-file filter (store/index.ts, pull):
`f.basename.startsWith('tasks_') && f.basename.endsWith('.json')`. -/
def isTaskFile (f : RemoteFile) : Bool :=
  strStartsWith f.basename "tasks_" && strEndsWith f.basename ".json"

/-- Download decision for one shard file (store/index.ts, pull): download
everything when `lastSyncTime` is null, otherwise only files whose remote
modification time is strictly newer. -/
def shouldDownload (lastSyncTime : Option Int) (f : RemoteFile) : Bool :=
  match lastSyncTime with
  | none => true
  | some t => decide (t < f.lastmod)

/-- The per-file download results of a pull, in file order: for each shard
file selected for download, `none` when its fetch came back non-ok, else the
month key together with the decoded `data.tasks` payload (remote tasks are
modelled by their decoded instants). -/
def pullResults (lastSyncTime : Option Int) (files : List RemoteFile)
    (download : String → Option (List Task)) : List (Option (String × List Task)) :=
  ((files.filter isTaskFile).filter (shouldDownload lastSyncTime)).map
    (fun f => (download f.basename).map (fun ts => (monthKeyOf f.basename, ts)))

/-- The months of the successful downloads:
`results.filter(r => r).map(r => r.month)`. -/
def resultMonths (rs : List (Option (String × List Task))) : List String :=
  rs.filterMap (fun r => r.map Prod.fst)

/-- The pull's local replacement loop (store/index.ts): for each successfully
downloaded shard, drop every task whose current start month equals the
shard's month, then append the downloaded tasks. -/
def applyShardReplace (acc : List Task) : List (Option (String × List Task)) → List Task
  | [] => acc
  | none :: rest => applyShardReplace acc rest
  | some (m, ts) :: rest =>
      applyShardReplace (acc.filter (fun t => monthOf t.startTime ≠ m) ++ ts) rest

/-- Result of a `syncFromWebDAV` (pull) run: final store state, the files
selected for download, the shard fetch requests issued, the persisted
sync-state write, and the toast. -/
structure PullResult where
  finalState : AppState
  downloaded : List RemoteFile
  shardFetches : List String
  dbWrite : Option SyncStateWrite
  toast : Option Toast
deriving Repr, DecidableEq

/-- Store `syncFromWebDAV` (store/index.ts, the pull).  After the config
check the source fetches `config.json` and overwrites the configuration
documents (`workSchedule`, `aiConfig`, `templates` — none of them modelled
state); it then lists the remote data directory (`listRes`), filters shard
files, selects those needing download, fetches each (`download` gives the
decoded body of each fetch, `none` for a non-ok response), replaces the
matching local months wholesale, toasts success or "no new cloud data", and
— still inside the successful-listing branch — persists
`\x7b ...webdavConfig, lastSyncTime: now, dirtyMonths: [] \x7d` and installs
only `lastSyncTime` into the store.  `isSyncing` is cleared in the `finally`
step.  The model covers executions in which no step throws. -/
def syncFromWebDAV (s0 : AppState) (listRes : Option (List RemoteFile))
    (download : String → Option (List Task)) (now : Int) : PullResult :=
  match s0.webdavConfig with
  | none =>
      { finalState := s0
        downloaded := []
        shardFetches := []
        dbWrite := none
        toast := some (.error "请先配置 WebDAV") }
  | some cfg =>
      let s1 := { s0 with isSyncing := true }
      match listRes with
      | none =>
          { finalState := { s1 with isSyncing := false }
            downloaded := []
            shardFetches := []
            dbWrite := none
            toast := none }
      | some files =>
          let taskFiles := files.filter isTaskFile
          let filesToDownload := taskFiles.filter (shouldDownload s0.lastSyncTime)
          let results := pullResults s0.lastSyncTime files download
          let hasUpdates := results.any Option.isSome
          let tasks1 := if hasUpdates then applyShardReplace s1.tasks results else s1.tasks
          let toast1 : Toast :=
            if 0 < filesToDownload.length then
              .success ("已同步 " ++ toString filesToDownload.length ++ " 个文件")
            else
              .info "云端没有新数据"
          { finalState :=
              { s1 with tasks := tasks1, lastSyncTime := some now, isSyncing := false }
            downloaded := filesToDownload
            shardFetches := filesToDownload.map (fun f => "data/" ++ f.basename)
            dbWrite := some
              { url := cfg.url
                username := cfg.username
                password := cfg.password
                lastSyncTime := some now
                dirtyMonths := [] }
            toast := some toast1 }

end Store

namespace DB

/-- `db.getAllTasks` (lib/database.ts): returns `tasks.toArray()`, but a
failure of the persistence layer is caught, logged, and turned into the
default `[]`.  The underlying Dexie call's outcome is passed in as
`toArrayRes`. -/
def getAllTasks (toArrayRes : Except String (List Task)) : List Task :=
  match toArrayRes with
  | .ok ts => ts
  | .error _ => []

/-- `db.getTaskById` (lib/database.ts): a persistence failure is caught and
turned into `undefined`. -/
def getTaskById (getRes : Except String (Option Task)) : Option Task :=
  match getRes with
  | .ok t? => t?
  | .error _ => none

/-- `db.addTask` (lib/database.ts): on success returns the task id; a
persistence failure is caught and replaced by `new Error('添加任务失败')`. -/
def addTask (t : Task) (addRes : Except String Unit) : Except String String :=
  match addRes with
  | .ok _ => .ok t.id
  | .error _ => .error "添加任务失败"

/-- `db.updateTask` (lib/database.ts): a persistence failure is caught and
replaced by `new Error('更新任务失败')`. -/
def updateTask (updateRes : Except String Unit) : Except String Unit :=
  match updateRes with
  | .ok _ => .ok ()
  | .error _ => .error "更新任务失败"

/-- `db.deleteTask` (lib/database.ts): a persistence failure is caught and
replaced by `new Error('删除任务失败')`. -/
def deleteTask (delRes : Except String Unit) : Except String Unit :=
  match delRes with
  | .ok _ => .ok ()
  | .error _ => .error "删除任务失败"

/-- `db.batchUpdateTaskStatus` (lib/database.ts): awaits `this.updateTask`
per id in order with no catch of its own, so the first wrapped failure
aborts the loop and propagates. -/
def batchUpdateTaskStatus (updateResults : List (Except String Unit)) : Except String Unit :=
  updateResults.foldl (fun acc r => acc.bind (fun _ => updateTask r)) (.ok ())

end DB

namespace Api

/-- The `config` object of a WebDAV API request body; each field may be
absent or empty (JS falsy). -/
structure ApiConfig where
  url : Option String
  username : Option String
  password : Option String
deriving Repr, DecidableEq

/-- JS truthiness of an optional string: `undefined` and `''` are falsy. -/
def falsy (o : Option String) : Bool :=
  match o with
  | none => true
  | some s => s = ""

/-- The credential check of the handler:
`!config || !config.url || !config.username || !config.password`. -/
def validConfig (cfg : Option ApiConfig) : Bool :=
  match cfg with
  | none => false
  | some c => !(falsy c.url) && !(falsy c.username) && !(falsy c.password)

/-- A WebDAV API request body (the `action`, `config`, `data`, `path`
fields read by the handler). -/
structure ApiRequest where
  action : String
  config : Option ApiConfig
  data : Option String
  path : Option String
deriving Repr, DecidableEq

/-- The remote WebDAV store: the set of directory paths and the files
(path, content). -/
structure Remote where
  dirs : List String
  files : List (String × String)
deriving Repr, DecidableEq

/-- `client.exists(p)`: true when `p` names a directory or a file. -/
def remoteExists (r : Remote) (p : String) : Bool :=
  p ∈ r.dirs || r.files.any (fun f => f.1 = p)

/-- One remote WebDAV operation issued by the handler, in call order. -/
inductive ApiOp
  | existsQ (p : String)
  | mkdir (p : String)
  | listDir (p : String)
  | putFile (p : String)
  | getFile (p : String)
deriving Repr, DecidableEq

/-- One step of the directory-provisioning prologue: query existence of `p`
and create the directory when absent. -/
def ensureStep (r : Remote) (p : String) : Remote × List ApiOp :=
  if remoteExists r p then (r, [ApiOp.existsQ p])
  else ({ r with dirs := r.dirs ++ [p] }, [ApiOp.existsQ p, ApiOp.mkdir p])

/-- The directory-provisioning prologue of the handler: `ensureStep` for
`/align` and then, on its result, for `/align/data`. -/
def ensureDirs (r : Remote) : Remote × List ApiOp :=
  ((ensureStep (ensureStep r "/align").1 "/align/data").1,
    (ensureStep r "/align").2 ++ (ensureStep (ensureStep r "/align").1 "/align/data").2)

/-- An HTTP response of the handler, by status code. -/
structure ApiResponse where
  status : Nat
deriving Repr, DecidableEq

/-- Result of one handler invocation: the response, the remote store after
it, and the remote operations issued in order. -/
structure HandlerResult where
  response : ApiResponse
  remote : Remote
  ops : List ApiOp
deriving Repr, DecidableEq

/-- The file path targeted by `put`/`get`:
`filePath ? (filePath.startsWith('/') ? filePath : basePath + '/' + filePath) : basePath + '/align-data.json'`. -/
def resolvePath (path : Option String) : String :=
  match path with
  | some p => if strStartsWith p "/" then p else "/align" ++ "/" ++ p
  | none => "/align" ++ "/align-data.json"

/-- The `switch (action)` body of the handler, run against the remote store
left by the directory-provisioning prologue: `check` lists the root,
`listFiles` lists the data directory, `put` writes a file (rejecting a
missing body with 400), `get` reads one (404 when absent), and any other
action is a 400.  `ops` holds only the remote operations of the switch
itself. -/
def handlerAction (req : ApiRequest) (r1 : Remote) : HandlerResult :=
  if req.action = "check" then
    { response := { status := 200 }, remote := r1, ops := [ApiOp.listDir "/"] }
  else if req.action = "listFiles" then
    { response := { status := 200 }, remote := r1, ops := [ApiOp.listDir "/align/data"] }
  else if req.action = "put" then
    match req.data with
    | none => { response := { status := 400 }, remote := r1, ops := [] }
    | some body =>
        let target := resolvePath req.path
        { response := { status := 200 }
          remote := { r1 with files := r1.files ++ [(target, body)] }
          ops := [ApiOp.putFile target] }
  else if req.action = "get" then
    let source := resolvePath req.path
    if remoteExists r1 source then
      { response := { status := 200 }, remote := r1,
        ops := [ApiOp.existsQ source, ApiOp.getFile source] }
    else
      { response := { status := 404 }, remote := r1, ops := [ApiOp.existsQ source] }
  else
    { response := { status := 400 }, remote := r1, ops := [] }

/-- The Vercel WebDAV API handler (the typed `api/webdav` function): after
the credential check it unconditionally runs the directory-provisioning
prologue (`ensureDirs`) and only then dispatches on `action`; its operation
trace is the prologue's followed by the switch's. -/
def handler (req : ApiRequest) (r : Remote) : HandlerResult :=
  if !(validConfig req.config) then
    { response := { status := 400 }, remote := r, ops := [] }
  else
    let er := ensureDirs r
    let act := handlerAction req er.1
    { response := act.response, remote := act.remote, ops := er.2 ++ act.ops }

end Api

namespace Wire

/-- A time-valued field of a task as JS sees it: either a live `Date` object
(an instant) or the string a JSON round trip leaves behind. -/
inductive JSTime
  | jsdate (ms : Int)
  | jsstr (s : String)
deriving Repr, DecidableEq

/-- A task as held in a JS runtime value, with its five time-valued fields
of type `JSTime`; all other fields are plain JSON-safe data.  Tasks loaded
from Dexie carry `jsdate` values; tasks inserted from a parsed remote
snapshot carry `jsstr` values. -/
structure TaskW where
  id : String
  title : String
  description : Option String
  startTime : JSTime
  endTime : JSTime
  estimatedDuration : Nat
  priority : TaskPriority
  status : TaskStatus
  category : TaskCategory
  parentId : Option String
  subtasks : List SubTask
  createdAt : JSTime
  updatedAt : JSTime
  completedAt : Option JSTime
  actualDuration : Option Nat
  aiSuggested : Option Bool
  reminderMinutes : Option Nat
deriving Repr, DecidableEq

/-- Effect of `JSON.parse(JSON.stringify(·))` on one time-valued field:
`JSON.stringify` serializes a `Date` via `toJSON` to its ISO-8601 string,
and `JSON.parse` returns that string; a field already a string is kept. -/
def roundTripTime : JSTime → JSTime
  | .jsdate ms => .jsstr (isoOfMs ms)
  | .jsstr s => .jsstr s

/-- Effect of `JSON.parse(JSON.stringify(·))` on a task value (the shard
codec realized by the `put` handler's `JSON.stringify(data)` and the pull's
`JSON.parse`): every JSON-safe field survives unchanged, and each time
field goes through `roundTripTime`. -/
def roundTripTask (t : TaskW) : TaskW :=
  { t with
    startTime := roundTripTime t.startTime
    endTime := roundTripTime t.endTime
    createdAt := roundTripTime t.createdAt
    updatedAt := roundTripTime t.updatedAt
    completedAt := t.completedAt.map roundTripTime }

/-- Deserialize-after-serialize on a whole shard task array. -/
def shardRoundTrip (ts : List TaskW) : List TaskW :=
  ts.map roundTripTask

/-- A task whose time-valued fields are all already strings (the only shape
a JSON round trip can leave a task in). -/
def timeFieldsAreStrings (t : TaskW) : Prop :=
  (∃ s, t.startTime = .jsstr s) ∧ (∃ s, t.endTime = .jsstr s) ∧
    (∃ s, t.createdAt = .jsstr s) ∧ (∃ s, t.updatedAt = .jsstr s) ∧
    (t.completedAt = none ∨ ∃ s, t.completedAt = some (.jsstr s))

end Wire

/-! Concrete example values used by the witnesses and counterexamples. -/

/-- Example WebDAV endpoint configuration. -/
def exCfg : WebDAVConfig :=
  { url := "https://dav.example.com/", username := "alice", password := some "secret" }

/-- Example task starting 2024-03-15T10:00:00Z. -/
def exTaskMar : Task :=
  { id := "t1", title := "A", description := none
    startTime := 1710496800000, endTime := 1710500400000
    estimatedDuration := 60, priority := .urgentImportant, status := .planning
    category := .work, parentId := none, subtasks := []
    createdAt := 1710496800000, updatedAt := 1710496800000
    completedAt := none, actualDuration := none
    aiSuggested := none, reminderMinutes := none }

/-- Example task starting 2024-04-10T09:00:00Z. -/
def exTaskApr : Task :=
  { exTaskMar with
    id := "t2", title := "B"
    startTime := 1712739600000, endTime := 1712743200000 }

/-- A second March-2024 task (a remote snapshot's content). -/
def exTaskMar2 : Task :=
  { exTaskMar with id := "t3", title := "C", startTime := 1709251200000, endTime := 1709254800000 }

/-- A fixed "now" instant for sync runs. -/
def exNow : Int := 1712800000000

/-- Store state holding one March task, with the March shard dirty and a
configured endpoint, idle. -/
def exPushState : AppState :=
  { tasks := [exTaskMar], dirtyMonths := ["2024-03"], isSyncing := false
    lastSyncTime := none, webdavConfig := some exCfg }

/-- The same state while a sync operation is already in flight. -/
def exBusyState : AppState :=
  { exPushState with isSyncing := true }

/-- A state that has synced before: `lastSyncTime` newer than every remote
shard timestamp below. -/
def exUpToDateState : AppState :=
  { exPushState with lastSyncTime := some 1712000000000 }

/-- A never-synced state holding a March and an April task. -/
def exPullState : AppState :=
  { tasks := [exTaskMar, exTaskApr], dirtyMonths := [], isSyncing := false
    lastSyncTime := none, webdavConfig := some exCfg }

/-- A remote listing: one task shard older than `exUpToDateState`'s last
sync, plus a non-shard file. -/
def exFiles : List Store.RemoteFile :=
  [ { basename := "tasks_2024-03.json", lastmod := 1711000000000 },
    { basename := "config.json", lastmod := 1799999999999 } ]

/-- A download oracle returning the March snapshot `[exTaskMar2]` for the
March shard file and a failed response for everything else. -/
def exDownload : String → Option (List Task) :=
  fun basename => if basename = "tasks_2024-03.json" then some [exTaskMar2] else none

/-- The update applied in the C7 witness: move the start instant to April. -/
def exPatchApr : TaskPatch :=
  { startTime := some 1712739600000, endTime := some 1712743200000 }

/-- A valid API request configuration. -/
def exApiCfg : Api.ApiConfig :=
  { url := some "https://dav.example.com/", username := some "alice", password := some "secret" }

/-- A read-only `check` request. -/
def exCheckReq : Api.ApiRequest :=
  { action := "check", config := some exApiCfg, data := none, path := none }

/-- An empty remote store: no directories, no files. -/
def exEmptyRemote : Api.Remote := { dirs := [], files := [] }

/-- A wire task whose time fields are live `Date` values. -/
def exTaskW : Wire.TaskW :=
  { id := "t1", title := "A", description := none
    startTime := .jsdate 1710496800000, endTime := .jsdate 1710500400000
    estimatedDuration := 60, priority := .urgentImportant, status := .planning
    category := .work, parentId := none, subtasks := []
    createdAt := .jsdate 1710496800000, updatedAt := .jsdate 1710496800000
    completedAt := none, actualDuration := none
    aiSuggested := none, reminderMinutes := none }

/-! Helper lemmas. -/

/-- A month key rendered by `monthOf` is never the empty string (it always
contains the year-month separator). -/
theorem monthOf_ne_empty (ms : Int) : monthOf ms ≠ "" := by
  intro h
  have hl := congrArg String.length h
  rw [monthOf, String.length_append, String.length_append] at hl
  have h1 : ("-" : String).length = 1 := rfl
  simp [h1] at hl

/-- `Set.prototype.add` makes the added element a member. -/
theorem mem_jsSetAdd_self (l : List String) (x : String) : x ∈ jsSetAdd l x := by
  unfold jsSetAdd
  split
  · assumption
  · simp

/-- `Set.prototype.add` keeps all existing members. -/
theorem mem_jsSetAdd_of_mem {l : List String} {x : String} (y : String) (h : x ∈ l) :
    x ∈ jsSetAdd l y := by
  unfold jsSetAdd
  split
  · exact h
  · exact List.mem_append_left _ h

/-- Filtering by `q` ignores an earlier filter by a weaker predicate `p`. -/
theorem filter_filter_of_imp {α : Type} (l : List α) (p q : α → Bool)
    (h : ∀ x, q x = true → p x = true) : (l.filter p).filter q = l.filter q := by
  induction l with
  | nil => rfl
  | cons a l ih =>
    by_cases hq : q a = true
    · have hp := h a hq
      simp [List.filter_cons, hp, hq, ih]
    · by_cases hp : p a = true <;>
        simp [List.filter_cons, hp, hq, ih]

/-- Filtering by `q` after a filter by a predicate incompatible with `q`
yields nothing. -/
theorem filter_filter_eq_nil {α : Type} (l : List α) (p q : α → Bool)
    (h : ∀ x, q x = true → p x = false) : (l.filter p).filter q = [] := by
  rw [List.filter_eq_nil_iff]
  intro a ha
  have hp := (List.mem_filter.1 ha).2
  intro hq
  rw [h a hq] at hp
  exact Bool.false_ne_true hp

/-- A successfully downloaded shard's month is among the result months. -/
theorem mem_resultMonths {m : String} {ts : List Task}
    {rs : List (Option (String × List Task))} (h : some (m, ts) ∈ rs) :
    m ∈ Store.resultMonths rs := by
  rw [Store.resultMonths, List.mem_filterMap]
  exact ⟨some (m, ts), h, rfl⟩

/-- The replacement loop is invisible to any month predicate `q` that holds
for no downloaded task and excludes every downloaded month. -/
theorem applyShardReplace_filter_none (q : Task → Bool)
    (rs : List (Option (String × List Task)))
    (h : ∀ m ts, some (m, ts) ∈ rs →
      (∀ t ∈ ts, q t = false) ∧ ∀ t : Task, q t = true → monthOf t.startTime ≠ m) :
    ∀ acc, (Store.applyShardReplace acc rs).filter q = acc.filter q := by
  induction rs with
  | nil => intro acc; rfl
  | cons r rest ih =>
    intro acc
    match r with
    | none =>
      exact ih (fun m ts hm => h m ts (List.mem_cons_of_mem _ hm)) acc
    | some (m, ts) =>
      have hh := h m ts (List.mem_cons_self _ _)
      show (Store.applyShardReplace
        (acc.filter (fun t => monthOf t.startTime ≠ m) ++ ts) rest).filter q = acc.filter q
      rw [ih (fun m2 ts2 hm => h m2 ts2 (List.mem_cons_of_mem _ hm)) _]
      rw [List.filter_append]
      have h1 : (acc.filter (fun t => monthOf t.startTime ≠ m)).filter q = acc.filter q :=
        filter_filter_of_imp acc _ q (fun t hq => decide_eq_true (hh.2 t hq))
      have h2 : ts.filter q = [] :=
        (List.filter_eq_nil_iff).2 (fun t ht => by simp [hh.1 t ht])
      rw [h1, h2]
      simp

/-- After the replacement loop, the tasks of a downloaded month are exactly
that month's downloaded snapshot (given well-formed snapshots and distinct
months). -/
theorem applyShardReplace_filter_month :
    ∀ (rs : List (Option (String × List Task))) (acc : List Task) (m : String) (ts : List Task),
      some (m, ts) ∈ rs →
      (∀ m2 ts2, some (m2, ts2) ∈ rs → ∀ t ∈ ts2, monthOf t.startTime = m2) →
      (Store.resultMonths rs).Nodup →
      (Store.applyShardReplace acc rs).filter (fun t => decide (monthOf t.startTime = m)) = ts := by
  intro rs
  induction rs with
  | nil => intro acc m ts hmem; exact absurd hmem (List.not_mem_nil _)
  | cons r rest ih =>
    intro acc m ts hmem hwf hnd
    match r with
    | none =>
      have hmem' : some (m, ts) ∈ rest := by
        rcases List.mem_cons.1 hmem with h | h
        · exact absurd h (by simp)
        · exact h
      have hnd' : (Store.resultMonths rest).Nodup := by
        rw [Store.resultMonths, List.filterMap_cons] at hnd
        exact hnd
      exact ih acc m ts hmem' (fun m2 ts2 hm => hwf m2 ts2 (List.mem_cons_of_mem _ hm)) hnd'
    | some (m2, ts2) =>
      have hmonths : Store.resultMonths (some (m2, ts2) :: rest) = m2 :: Store.resultMonths rest := by
        rw [Store.resultMonths, List.filterMap_cons]
        rfl
      rw [hmonths] at hnd
      have hm2 : m2 ∉ Store.resultMonths rest := (List.nodup_cons.1 hnd).1
      have hndr : (Store.resultMonths rest).Nodup := (List.nodup_cons.1 hnd).2
      rcases List.mem_cons.1 hmem with h | h
      · have hm : m = m2 := by
          injection h with h1
          exact congrArg Prod.fst h1
        have hts : ts = ts2 := by
          injection h with h1
          exact congrArg Prod.snd h1
        subst hm
        subst hts
        show (Store.applyShardReplace
          (acc.filter (fun t => monthOf t.startTime ≠ m) ++ ts) rest).filter
            (fun t => decide (monthOf t.startTime = m)) = ts
        rw [applyShardReplace_filter_none _ rest ?hq]
        case hq =>
          intro m3 ts3 hm3
          constructor
          · intro t ht
            have heq : monthOf t.startTime = m3 :=
              hwf m3 ts3 (List.mem_cons_of_mem _ hm3) t ht
            have hne : m3 ≠ m := fun hc => hm2 (hc ▸ mem_resultMonths hm3)
            rw [heq]
            exact decide_eq_false hne
          · intro t hq
            have := of_decide_eq_true hq
            rw [this]
            intro hc
            exact hm2 (hc ▸ mem_resultMonths hm3)
        rw [List.filter_append]
        rw [filter_filter_eq_nil _ _ _ ?hpq]
        case hpq =>
          intro t hq
          have := of_decide_eq_true hq
          exact decide_eq_false (by rw [this]; intro hc; exact hc rfl)
        rw [List.filter_eq_self.2 ?hself]
        case hself =>
          intro t ht
          exact decide_eq_true (hwf m ts (List.mem_cons_self _ _) t ht)
        rfl
      · exact ih _ m ts h (fun m3 ts3 hm => hwf m3 ts3 (List.mem_cons_of_mem _ hm)) hndr

/-! Claim theorems. -/

/-- Claim C1 (refuted by the code; evidence of the divergence): starting
from a state with a configured endpoint, a March task, and dirty shard set
`["2024-03"]`, the push issues no remote request whatsoever — no shard
snapshot is written to `/align/data/tasks_2024-03.json` or anywhere else —
yet reports success, clears the dirty set and advances `lastSyncTime`. -/
theorem c1_push_writes_no_shards :
    exPushState.dirtyMonths = ["2024-03"] ∧
    (Store.syncToWebDAV exPushState id exNow).remoteCalls = [] ∧
    (Store.syncToWebDAV exPushState id exNow).toast = .success "同步成功" ∧
    (Store.syncToWebDAV exPushState id exNow).finalState.dirtyMonths = [] ∧
    (Store.syncToWebDAV exPushState id exNow).finalState.lastSyncTime = some exNow :=
  ⟨rfl, rfl, rfl, rfl, rfl⟩

/-- Claim C2 (refuted by the code; evidence of the divergence): a push is
started while `["2024-03"]` is dirty; during the in-flight delay a racing
`addTask` adds an April task, marking `"2024-04"` dirty in the live state;
when the push completes it has cleared the entire live dirty set, so the
racing mark `"2024-04"` is gone although no payload ever included it. -/
theorem c2_racing_dirty_mark_cleared :
    "2024-04" ∈ (Store.addTask { exPushState with isSyncing := true } exTaskApr).dirtyMonths ∧
    (Store.syncToWebDAV exPushState (fun s => Store.addTask s exTaskApr) exNow).finalState.dirtyMonths = [] ∧
    "2024-04" ∉ (Store.syncToWebDAV exPushState (fun s => Store.addTask s exTaskApr) exNow).finalState.dirtyMonths := by
  refine ⟨?_, rfl, ?_⟩
  · decide
  · decide

/-- Claim C3, counterexample: a push requested while `isSyncing` is already
true is not rejected — it runs to completion, reports plain success (there
is no "sync already in progress" result anywhere), changes the state and
writes the sync-state record. -/
theorem c3_reentrant_push_not_rejected :
    exBusyState.isSyncing = true ∧
    (Store.syncToWebDAV exBusyState id exNow).toast = .success "同步成功" ∧
    (Store.syncToWebDAV exBusyState id exNow).finalState ≠ exBusyState ∧
    (Store.syncToWebDAV exBusyState id exNow).dbWrite.isSome = true := by
  refine ⟨rfl, rfl, ?_, rfl⟩
  decide

/-- Claim C3 as amended: neither `syncToWebDAV` nor `syncFromWebDAV` checks
the `syncing` flag — a push or pull requested while another operation is in
flight is not rejected and proceeds normally, performing its state changes
and persisted writes (re-entrancy is only mitigated by the UI disabling the
sync buttons while `isSyncing` is true). -/
theorem c3_no_reentrancy_guard (s : AppState) (cfg : WebDAVConfig)
    (interim : AppState → AppState) (now : Int) (files : List Store.RemoteFile)
    (download : String → Option (List Task))
    (hcfg : s.webdavConfig = some cfg) (hbusy : s.isSyncing = true) :
    (Store.syncToWebDAV s interim now).toast = .success "同步成功" ∧
    (Store.syncToWebDAV s interim now).finalState.lastSyncTime = some now ∧
    (Store.syncToWebDAV s interim now).dbWrite.isSome = true ∧
    (Store.syncFromWebDAV s (some files) download now).dbWrite.isSome = true := by
  rw [Store.syncToWebDAV, Store.syncFromWebDAV, hcfg]
  exact ⟨rfl, rfl, rfl, rfl⟩

/-- Witness for the amended C3 at a concrete in-flight state. -/
theorem c3_no_reentrancy_guard_witness :
    (Store.syncToWebDAV exBusyState id exNow).toast = .success "同步成功" ∧
    (Store.syncToWebDAV exBusyState id exNow).finalState.lastSyncTime = some exNow ∧
    (Store.syncToWebDAV exBusyState id exNow).dbWrite.isSome = true ∧
    (Store.syncFromWebDAV exBusyState (some exFiles) exDownload exNow).dbWrite.isSome = true :=
  c3_no_reentrancy_guard exBusyState exCfg id exNow exFiles exDownload rfl rfl

/-- Claim C4, counterexample: when the persistence layer fails with
"QuotaExceededError", `db.addTask` surfaces the unrelated fixed error
"添加任务失败" — not the original error — and `db.getAllTasks` swallows the
failure entirely, returning the default `[]`. -/
theorem c4_storage_error_not_propagated :
    DB.addTask exTaskMar (.error "QuotaExceededError") = .error "添加任务失败" ∧
    ("添加任务失败" : String) ≠ "QuotaExceededError" ∧
    DB.getAllTasks (.error "QuotaExceededError") = [] := by
  refine ⟨rfl, ?_, rfl⟩
  decide

/-- Claim C4 as amended: on a persistence-layer failure, the write
operations (`addTask`, `updateTask`, `deleteTask`, and
`batchUpdateTaskStatus` through `updateTask`) catch the error and throw a
new generic fixed-message error in its place, while the read operations
(`getAllTasks`, `getTaskById`) swallow the error and return a default value
(`[]`, `undefined`). -/
theorem c4_db_error_mapping (e : String) (t : Task) :
    DB.addTask t (.error e) = .error "添加任务失败" ∧
    DB.updateTask (.error e) = .error "更新任务失败" ∧
    DB.deleteTask (.error e) = .error "删除任务失败" ∧
    DB.batchUpdateTaskStatus [.ok (), .error e] = .error "更新任务失败" ∧
    DB.getAllTasks (.error e) = [] ∧
    DB.getTaskById (.error e) = none :=
  ⟨rfl, rfl, rfl, rfl, rfl, rfl⟩

/-- A time field survives the JSON round trip unchanged iff it is already a
string. -/
theorem roundTripTime_eq_self (x : Wire.JSTime) :
    Wire.roundTripTime x = x ↔ ∃ s, x = .jsstr s := by
  cases x with
  | jsdate ms => simp [Wire.roundTripTime]
  | jsstr s => simp [Wire.roundTripTime]

/-- A task survives the JSON round trip unchanged iff all its time fields
are already strings. -/
theorem roundTripTask_eq_self (t : Wire.TaskW) :
    Wire.roundTripTask t = t ↔ Wire.timeFieldsAreStrings t := by
  obtain ⟨i, ti, de, st, en, ed, pr, stt, cat, par, sub, ca, ua, co, ad, ai, rm⟩ := t
  cases co with
  | none =>
      simp [Wire.roundTripTask, Wire.timeFieldsAreStrings, Wire.TaskW.mk.injEq,
        roundTripTime_eq_self]
  | some x =>
      simp [Wire.roundTripTask, Wire.timeFieldsAreStrings, Wire.TaskW.mk.injEq,
        roundTripTime_eq_self]

/-- Claim C5, counterexample: a shard holding one task whose time fields are
live `Date` values does not round-trip to an equal task set — its
`startTime` comes back as the ISO string "2024-03-15T10:00:00.000Z" instead
of the `Date`. -/
theorem c5_dates_not_recovered :
    Wire.shardRoundTrip [exTaskW] ≠ [exTaskW] ∧
    (Wire.roundTripTask exTaskW).startTime = .jsstr "2024-03-15T10:00:00.000Z" := by
  constructor
  · decide
  · decide

/-- Claim C5 as amended: the shard codec round trip (JSON.stringify on put,
JSON.parse on get) preserves every non-Date field but returns each
Date-valued field as its ISO-8601 string; a task array round-trips to an
equal task set exactly when all its time fields are already strings — in
particular a shard containing any genuine `Date` value is not recovered
equal. -/
theorem c5_roundtrip_identity_iff_no_dates (ts : List Wire.TaskW) :
    Wire.shardRoundTrip ts = ts ↔ ∀ t ∈ ts, Wire.timeFieldsAreStrings t := by
  unfold Wire.shardRoundTrip
  induction ts with
  | nil => simp
  | cons t rest ih => simp [roundTripTask_eq_self, ih]

/-- Claim C6: during a pull with a successful listing, a null `lastSyncTime`
selects every remote shard file for download; otherwise a shard file is
selected iff its remote modification timestamp is strictly newer than
`lastSyncTime`; and when no shard file qualifies, the pull performs zero
shard fetches and reports the non-error "no new cloud data" toast. -/
theorem c6_pull_download_filter (s0 : AppState) (cfg : WebDAVConfig)
    (files : List Store.RemoteFile) (download : String → Option (List Task)) (now : Int)
    (hcfg : s0.webdavConfig = some cfg) :
    (s0.lastSyncTime = none →
      (Store.syncFromWebDAV s0 (some files) download now).downloaded =
        files.filter Store.isTaskFile) ∧
    (∀ t0, s0.lastSyncTime = some t0 → ∀ f,
      (f ∈ (Store.syncFromWebDAV s0 (some files) download now).downloaded ↔
        f ∈ files.filter Store.isTaskFile ∧ t0 < f.lastmod)) ∧
    ((files.filter Store.isTaskFile).filter (Store.shouldDownload s0.lastSyncTime) = [] →
      (Store.syncFromWebDAV s0 (some files) download now).downloaded = [] ∧
      (Store.syncFromWebDAV s0 (some files) download now).shardFetches = [] ∧
      (Store.syncFromWebDAV s0 (some files) download now).toast =
        some (.info "云端没有新数据")) := by
  obtain ⟨tks, dm, isy, lst, wdc⟩ := s0
  simp only at hcfg
  subst hcfg
  refine ⟨?_, ?_, ?_⟩
  · intro hnone
    simp only at hnone
    subst hnone
    show (files.filter Store.isTaskFile).filter (Store.shouldDownload none) =
      files.filter Store.isTaskFile
    exact List.filter_eq_self.2 (fun f _ => rfl)
  · intro t0 ht0 f
    simp only at ht0
    subst ht0
    show f ∈ (files.filter Store.isTaskFile).filter (Store.shouldDownload (some t0)) ↔ _
    rw [List.mem_filter]
    simp [Store.shouldDownload]
  · intro hempty
    simp only at hempty
    refine ⟨hempty, ?_, ?_⟩
    · show ((files.filter Store.isTaskFile).filter (Store.shouldDownload lst)).map
        (fun f => "data/" ++ f.basename) = []
      rw [hempty]
      rfl
    · show some (if 0 < ((files.filter Store.isTaskFile).filter
          (Store.shouldDownload lst)).length then _ else _) = _
      rw [hempty]
      rfl

/-- Witness for C6: a state whose `lastSyncTime` is newer than every remote
shard timestamp pulls zero shards and reports "no new cloud data". -/
theorem c6_pull_download_filter_witness :
    (Store.syncFromWebDAV exUpToDateState (some exFiles) exDownload exNow).downloaded = [] ∧
    (Store.syncFromWebDAV exUpToDateState (some exFiles) exDownload exNow).shardFetches = [] ∧
    (Store.syncFromWebDAV exUpToDateState (some exFiles) exDownload exNow).toast =
      some (.info "云端没有新数据") :=
  (c6_pull_download_filter exUpToDateState exCfg exFiles exDownload exNow rfl).2.2 (by rfl)

/-- Claim C9: every pull that reaches a successful listing of the remote
data directory persists a sync state whose `dirtyMonths` is the empty
array, while the in-memory dirty set is left untouched — so whenever local
changes were pending, the persisted and in-memory dirty sets disagree after
the pull. -/
theorem c9_pull_persists_empty_dirty (s0 : AppState) (cfg : WebDAVConfig)
    (files : List Store.RemoteFile) (download : String → Option (List Task)) (now : Int)
    (hcfg : s0.webdavConfig = some cfg) :
    ∃ w, (Store.syncFromWebDAV s0 (some files) download now).dbWrite = some w ∧
      w.dirtyMonths = [] ∧
      (Store.syncFromWebDAV s0 (some files) download now).finalState.dirtyMonths =
        s0.dirtyMonths ∧
      (s0.dirtyMonths ≠ [] →
        w.dirtyMonths ≠
          (Store.syncFromWebDAV s0 (some files) download now).finalState.dirtyMonths) := by
  obtain ⟨tks, dm, isy, lst, wdc⟩ := s0
  simp only at hcfg
  subst hcfg
  refine ⟨_, rfl, rfl, rfl, ?_⟩
  intro hne h
  exact hne h.symm

/-- Witness for C9: pulled with `["2024-03"]` pending, the persisted dirty
set is `[]` while the in-memory one still holds `["2024-03"]`. -/
theorem c9_pull_persists_empty_dirty_witness :
    ∃ w, (Store.syncFromWebDAV exPushState (some exFiles) exDownload exNow).dbWrite = some w ∧
      w.dirtyMonths = [] ∧
      (Store.syncFromWebDAV exPushState (some exFiles) exDownload exNow).finalState.dirtyMonths =
        exPushState.dirtyMonths ∧
      (exPushState.dirtyMonths ≠ [] →
        w.dirtyMonths ≠
          (Store.syncFromWebDAV exPushState (some exFiles) exDownload exNow).finalState.dirtyMonths) :=
  c9_pull_persists_empty_dirty exPushState exCfg exFiles exDownload exNow rfl

/-- Claim C7: an update that moves a task's start instant into a different
calendar month — whether through `updateTask` with a `startTime` in the
patch or through `moveTask` — leaves both the old month key and the new
month key in the dirty set. -/
theorem c7_month_change_marks_both_dirty (s : AppState) (tid : String) (T : Task)
    (u : TaskPatch) (ns ne : Int)
    (hfind : s.tasks.find? (fun t => t.id = tid) = some T)
    (hstart : u.startTime = some ns)
    (hmonths : monthOf T.startTime ≠ monthOf ns) :
    (monthOf T.startTime ∈ (Store.updateTask s tid u).dirtyMonths ∧
      monthOf ns ∈ (Store.updateTask s tid u).dirtyMonths) ∧
    (monthOf T.startTime ∈ (Store.moveTask s tid ns ne).dirtyMonths ∧
      monthOf ns ∈ (Store.moveTask s tid ns ne).dirtyMonths) := by
  have hA := monthOf_ne_empty T.startTime
  have hB := monthOf_ne_empty ns
  constructor
  · unfold Store.updateTask
    rw [hfind, hstart]
    simp only
    rw [if_pos hA, if_pos hB]
    exact ⟨mem_jsSetAdd_of_mem _ (mem_jsSetAdd_self _ _), mem_jsSetAdd_self _ _⟩
  · unfold Store.moveTask
    rw [hfind]
    simp only
    constructor
    · exact List.mem_filter.2
        ⟨List.mem_append_right _ (by simp), decide_eq_true hA⟩
    · exact List.mem_filter.2
        ⟨List.mem_append_right _ (by simp), decide_eq_true hB⟩

/-- Witness for C7 at a concrete state: moving the March task `exTaskMar` to
April marks both "2024-03" and "2024-04" dirty, under both entry points. -/
theorem c7_month_change_marks_both_dirty_witness :
    (monthOf exTaskMar.startTime ∈ (Store.updateTask exPushState "t1" exPatchApr).dirtyMonths ∧
      monthOf 1712739600000 ∈ (Store.updateTask exPushState "t1" exPatchApr).dirtyMonths) ∧
    (monthOf exTaskMar.startTime ∈
        (Store.moveTask exPushState "t1" 1712739600000 1712743200000).dirtyMonths ∧
      monthOf 1712739600000 ∈
        (Store.moveTask exPushState "t1" 1712739600000 1712743200000).dirtyMonths) :=
  c7_month_change_marks_both_dirty exPushState "t1" exTaskMar exPatchApr
    1712739600000 1712743200000 (by rfl) rfl (by decide)

/-- Claim C8: after a pull (with a successful listing), for each
successfully downloaded shard the local tasks whose start instant lies in
that shard's month are exactly the downloaded snapshot — a full replace —
and local tasks in months no downloaded shard covers are unchanged.
Hypotheses: each downloaded snapshot's tasks lie in its own month, and the
downloaded months are distinct (the listing has one file per shard). -/
theorem c8_pull_replaces_months_wholesale (s0 : AppState) (cfg : WebDAVConfig)
    (files : List Store.RemoteFile) (download : String → Option (List Task)) (now : Int)
    (hcfg : s0.webdavConfig = some cfg)
    (hwf : ∀ m ts, some (m, ts) ∈ Store.pullResults s0.lastSyncTime files download →
      ∀ t ∈ ts, monthOf t.startTime = m)
    (hnd : (Store.resultMonths (Store.pullResults s0.lastSyncTime files download)).Nodup) :
    (∀ m ts, some (m, ts) ∈ Store.pullResults s0.lastSyncTime files download →
      (Store.syncFromWebDAV s0 (some files) download now).finalState.tasks.filter
        (fun t => decide (monthOf t.startTime = m)) = ts) ∧
    ((Store.syncFromWebDAV s0 (some files) download now).finalState.tasks.filter
        (fun t => decide (monthOf t.startTime ∉
          Store.resultMonths (Store.pullResults s0.lastSyncTime files download))) =
      s0.tasks.filter (fun t => decide (monthOf t.startTime ∉
        Store.resultMonths (Store.pullResults s0.lastSyncTime files download)))) := by
  obtain ⟨tks, dm, isy, lst, wdc⟩ := s0
  simp only at hcfg hwf hnd ⊢
  subst hcfg
  constructor
  · intro m ts hmem
    have hha : (Store.pullResults lst files download).any Option.isSome = true :=
      List.any_eq_true.2 ⟨some (m, ts), hmem, rfl⟩
    show (if (Store.pullResults lst files download).any Option.isSome
        then Store.applyShardReplace tks (Store.pullResults lst files download)
        else tks).filter (fun t => decide (monthOf t.startTime = m)) = ts
    rw [if_pos hha]
    exact applyShardReplace_filter_month (Store.pullResults lst files download)
      tks m ts hmem hwf hnd
  · show (if (Store.pullResults lst files download).any Option.isSome
        then Store.applyShardReplace tks (Store.pullResults lst files download)
        else tks).filter _ = tks.filter _
    by_cases hha : (Store.pullResults lst files download).any Option.isSome = true
    · rw [if_pos hha]
      apply applyShardReplace_filter_none
      intro m ts hmem
      constructor
      · intro t ht
        have hmem2 : monthOf t.startTime ∈
            Store.resultMonths (Store.pullResults lst files download) := by
          rw [hwf m ts hmem t ht]
          exact mem_resultMonths hmem
        exact decide_eq_false (by simpa using hmem2)
      · intro t hq
        have hq2 := of_decide_eq_true hq
        intro hc
        exact hq2 (hc ▸ mem_resultMonths hmem)
    · rw [if_neg hha]

/-- Witness for C8: an empty-`lastSyncTime` pull over the concrete listing
downloads the March shard `[exTaskMar2]`; afterwards the local March tasks
are exactly that snapshot while the April task is untouched. -/
theorem c8_pull_replaces_months_wholesale_witness :
    (Store.syncFromWebDAV exPullState (some exFiles) exDownload exNow).finalState.tasks.filter
      (fun t => decide (monthOf t.startTime = "2024-03")) = [exTaskMar2] ∧
    ((Store.syncFromWebDAV exPullState (some exFiles) exDownload exNow).finalState.tasks.filter
        (fun t => decide (monthOf t.startTime ∉
          Store.resultMonths (Store.pullResults exPullState.lastSyncTime exFiles exDownload))) =
      exPullState.tasks.filter (fun t => decide (monthOf t.startTime ∉
        Store.resultMonths (Store.pullResults exPullState.lastSyncTime exFiles exDownload)))) := by
  have hres : Store.pullResults exPullState.lastSyncTime exFiles exDownload =
      [some ("2024-03", [exTaskMar2])] := by rfl
  have h := c8_pull_replaces_months_wholesale exPullState exCfg exFiles exDownload exNow rfl
    ?hwf ?hnd
  case hwf =>
    intro m ts hm
    rw [hres] at hm
    simp only [List.mem_singleton, Option.some.injEq, Prod.mk.injEq] at hm
    obtain ⟨hm1, hm2⟩ := hm
    subst hm1
    subst hm2
    intro t ht
    simp only [List.mem_singleton] at ht
    subst ht
    decide
  case hnd =>
    rw [hres]
    decide
  exact ⟨h.1 "2024-03" [exTaskMar2] (by rw [hres]; simp), h.2⟩

/-- Adding directories preserves remote existence. -/
theorem remoteExists_dirs_append (r : Api.Remote) (l : List String) (p : String)
    (h : Api.remoteExists r p = true) :
    Api.remoteExists { r with dirs := r.dirs ++ l } p = true := by
  simp [Api.remoteExists, List.any_eq_true] at h ⊢
  tauto

/-- Adding files preserves remote existence. -/
theorem remoteExists_files_append (r : Api.Remote) (fs : List (String × String)) (p : String)
    (h : Api.remoteExists r p = true) :
    Api.remoteExists { r with files := r.files ++ fs } p = true := by
  simp [Api.remoteExists, List.any_eq_true] at h ⊢
  tauto

/-- A freshly created directory exists. -/
theorem remoteExists_dirs_self (r : Api.Remote) (p : String) :
    Api.remoteExists { r with dirs := r.dirs ++ [p] } p = true := by
  simp [Api.remoteExists]

/-- After one provisioning step for `p`, the path `p` exists. -/
theorem ensureStep_exists (r : Api.Remote) (p : String) :
    Api.remoteExists (Api.ensureStep r p).1 p = true := by
  unfold Api.ensureStep
  split
  · assumption
  · exact remoteExists_dirs_self r p

/-- A provisioning step preserves existence of any path. -/
theorem ensureStep_mono (r : Api.Remote) (p q : String)
    (h : Api.remoteExists r q = true) :
    Api.remoteExists (Api.ensureStep r p).1 q = true := by
  unfold Api.ensureStep
  split
  · exact h
  · exact remoteExists_dirs_append r [p] q h

/-- A provisioning step for an absent path issues its `mkdir`. -/
theorem ensureStep_mkdir (r : Api.Remote) (p : String)
    (h : Api.remoteExists r p = false) :
    Api.ApiOp.mkdir p ∈ (Api.ensureStep r p).2 := by
  unfold Api.ensureStep
  rw [if_neg (by rw [h]; simp)]
  simp

/-- A provisioning step for `p` leaves a different absent path absent. -/
theorem ensureStep_preserves_false (r : Api.Remote) (p q : String) (hpq : p ≠ q)
    (h : Api.remoteExists r q = false) :
    Api.remoteExists (Api.ensureStep r p).1 q = false := by
  unfold Api.ensureStep
  split
  · exact h
  · simp [Api.remoteExists, List.any_eq_true] at h ⊢
    constructor
    · exact ⟨h.1, fun hc => hpq hc.symm⟩
    · exact h.2

/-- After the prologue, `/align` exists. -/
theorem ensureDirs_exists_base (r : Api.Remote) :
    Api.remoteExists (Api.ensureDirs r).1 "/align" = true :=
  ensureStep_mono _ _ _ (ensureStep_exists r "/align")

/-- After the prologue, `/align/data` exists. -/
theorem ensureDirs_exists_data (r : Api.Remote) :
    Api.remoteExists (Api.ensureDirs r).1 "/align/data" = true :=
  ensureStep_exists _ _

/-- When `/align` is absent, the prologue creates it. -/
theorem ensureDirs_mkdir_base (r : Api.Remote)
    (h : Api.remoteExists r "/align" = false) :
    Api.ApiOp.mkdir "/align" ∈ (Api.ensureDirs r).2 :=
  List.mem_append_left _ (ensureStep_mkdir r _ h)

/-- When `/align/data` is absent, the prologue creates it. -/
theorem ensureDirs_mkdir_data (r : Api.Remote)
    (h : Api.remoteExists r "/align/data" = false) :
    Api.ApiOp.mkdir "/align/data" ∈ (Api.ensureDirs r).2 :=
  List.mem_append_right _
    (ensureStep_mkdir _ _ (ensureStep_preserves_false r "/align" "/align/data" (by decide) h))

/-- The switch body only ever appends files to the remote it is given. -/
theorem handlerAction_remote (req : Api.ApiRequest) (r1 : Api.Remote) :
    ∃ fs, (Api.handlerAction req r1).remote = { r1 with files := r1.files ++ fs } := by
  unfold Api.handlerAction
  by_cases h1 : req.action = "check"
  · refine ⟨[], ?_⟩
    simp [h1]
  by_cases h2 : req.action = "listFiles"
  · refine ⟨[], ?_⟩
    simp [h1, h2]
  by_cases h3 : req.action = "put"
  · match hd : req.data with
    | none =>
        refine ⟨[], ?_⟩
        simp [h1, h2, h3, hd]
    | some body =>
        refine ⟨[(Api.resolvePath req.path, body)], ?_⟩
        simp [h1, h2, h3, hd]
  by_cases h4 : req.action = "get"
  · by_cases h5 : Api.remoteExists r1 (Api.resolvePath req.path) = true
    · refine ⟨[], ?_⟩
      simp [h1, h2, h3, h4, h5]
    · refine ⟨[], ?_⟩
      simp [h1, h2, h3, h4, h5]
  · refine ⟨[], ?_⟩
    simp [h1, h2, h3, h4]

/-- Claim C10: every request to the WebDAV API handler that passes the
credential check — whatever its action, the read-only `check`, `listFiles`
and `get` included — first runs the directory-provisioning prologue, so
after the call both `/align` and `/align/data` exist, a `mkdir` was issued
for each that was absent, and the operation trace starts with the
prologue's operations. -/
theorem c10_handler_provisions_layout (req : Api.ApiRequest) (r : Api.Remote)
    (hv : Api.validConfig req.config = true) :
    Api.remoteExists (Api.handler req r).remote "/align" = true ∧
    Api.remoteExists (Api.handler req r).remote "/align/data" = true ∧
    (Api.remoteExists r "/align" = false →
      Api.ApiOp.mkdir "/align" ∈ (Api.handler req r).ops) ∧
    (Api.remoteExists r "/align/data" = false →
      Api.ApiOp.mkdir "/align/data" ∈ (Api.handler req r).ops) ∧
    ∃ rest, (Api.handler req r).ops = (Api.ensureDirs r).2 ++ rest := by
  unfold Api.handler
  rw [if_neg (by rw [hv]; simp)]
  obtain ⟨fs, hfs⟩ := handlerAction_remote req (Api.ensureDirs r).1
  refine ⟨?_, ?_, ?_, ?_, ⟨(Api.handlerAction req (Api.ensureDirs r).1).ops, rfl⟩⟩
  · show Api.remoteExists (Api.handlerAction req (Api.ensureDirs r).1).remote "/align" = true
    rw [hfs]
    exact remoteExists_files_append _ _ _ (ensureDirs_exists_base r)
  · show Api.remoteExists (Api.handlerAction req (Api.ensureDirs r).1).remote "/align/data" = true
    rw [hfs]
    exact remoteExists_files_append _ _ _ (ensureDirs_exists_data r)
  · intro h
    exact List.mem_append_left _ (ensureDirs_mkdir_base r h)
  · intro h
    exact List.mem_append_left _ (ensureDirs_mkdir_data r h)

/-- Witness for C10: a read-only `check` request with valid credentials
against an empty remote creates both directories. -/
theorem c10_handler_provisions_layout_witness :
    Api.remoteExists (Api.handler exCheckReq exEmptyRemote).remote "/align" = true ∧
    Api.remoteExists (Api.handler exCheckReq exEmptyRemote).remote "/align/data" = true ∧
    Api.ApiOp.mkdir "/align" ∈ (Api.handler exCheckReq exEmptyRemote).ops ∧
    Api.ApiOp.mkdir "/align/data" ∈ (Api.handler exCheckReq exEmptyRemote).ops := by
  have h := c10_handler_provisions_layout exCheckReq exEmptyRemote (by decide)
  exact ⟨h.1, h.2.1, h.2.2.1 (by decide), h.2.2.2.1 (by decide)⟩

end Align
